import Mathlib

/-!
Shallow embedding of the tv-tracker weekly sync script
(`.github/workflows/sync.py`) and verification of its specification.

External effects (HTTP calls to the metadata provider, the text-generation
provider, wall-clock time) are modelled as explicit oracle parameters:
  * `fetchShow : Nat → Option ShowDetail` for `GET /tv/{id}` (`none` covers
    the soft failures of `tmdb_get`, the only ones it handles: a missing
    credential or a non-200 response),
  * `fetchSeason : Nat → Nat → Option SeasonDetail` for
    `GET /tv/{id}/season/{n}` (same convention),
  * `today : Date` for `datetime.now(timezone.utc).date()`,
  * `response : Option String` for the text returned by the generation
    provider (`none` when the call raises: the script catches exceptions of
    this call), and
  * `jsonParse : String → Option (List Candidate)` for `json.loads` on the
    fence-stripped text (`none` when parsing raises, equally caught).
A `requests` exception (network error) in `tmdb_get` is caught nowhere: it
aborts `check_season_updates` before any output is produced.  The
`Except`-layer model (`check_season_updates_exc`) represents this third
outcome explicitly; the `Option`-layer model is its exception-free
fragment (`check_season_updates_exc_lift`).
All pure logic of the script is translated directly.
-/

namespace TvTracker

/-- A calendar date, as produced by `datetime.strptime(s, "%Y-%m-%d").date()`. -/
structure Date where
  year : Nat
  month : Nat
  day : Nat
  deriving Repr, DecidableEq

/-- Python `date` comparison `aired <= today`: lexicographic on
(year, month, day). -/
def dateLe (a b : Date) : Bool :=
  decide (a.year < b.year ∨ (a.year = b.year ∧
    (a.month < b.month ∨ (a.month = b.month ∧ a.day ≤ b.day))))

/-- Gregorian leap-year rule used by Python's calendar validation. -/
def isLeapYear (y : Nat) : Bool :=
  y % 4 = 0 && (y % 100 ≠ 0 || y % 400 = 0)

/-- Number of days of month `m` in year `y` (Python calendar validation). -/
def daysInMonth (y m : Nat) : Nat :=
  if m = 2 then (if isLeapYear y then 29 else 28)
  else if m = 4 ∨ m = 6 ∨ m = 9 ∨ m = 11 then 30
  else 31

/-- All characters are ASCII digits. -/
def allDigits (l : List Char) : Bool :=
  l.all (fun c => '0' ≤ c && c ≤ '9')

/-- Numeric value of a digit string. -/
def digitsVal (l : List Char) : Nat :=
  l.foldl (fun a c => a * 10 + (c.toNat - '0'.toNat)) 0

/-- Split a character list at every dash, like `str.split('-')`. -/
def splitDash : List Char → List (List Char)
  | [] => [[]]
  | c :: cs =>
    if c = '-' then [] :: splitDash cs
    else
      match splitDash cs with
      | [] => [[c]]
      | p :: ps => (c :: p) :: ps

/-- The `%d` group of CPython's `_strptime`, whose regex is
`3[01]|[12]\d|0[1-9]|[1-9]| [1-9]`: one or two digits, or a space followed
by one digit.  Values the regex excludes (0, or above 31) are equally
rejected by the later calendar check, so returning them here is harmless. -/
def dayGroupVal : List Char → Option Nat
  | [c] =>
    if '0' ≤ c && c ≤ '9' then some (c.toNat - '0'.toNat) else none
  | [c1, c2] =>
    if ('0' ≤ c1 && c1 ≤ '9') && ('0' ≤ c2 && c2 ≤ '9') then
      some (10 * (c1.toNat - '0'.toNat) + (c2.toNat - '0'.toNat))
    else if c1 = ' ' && ('0' ≤ c2 && c2 ≤ '9') then
      some (c2.toNat - '0'.toNat)
    else none
  | _ => none

/-- `datetime.strptime(s, "%Y-%m-%d").date()` as a total function: `none`
models the `ValueError` branch.  CPython's `_strptime` compiles `%Y` to
exactly four digits (`\d\d\d\d`), `%m` to `1[0-2]|0[1-9]|[1-9]` (one or two
digits valued 1..12) and `%d` to `3[01]|[12]\d|0[1-9]|[1-9]| [1-9]` (one or
two digits, or a space and one digit), requires the whole string consumed,
and the `date` constructor then demands a year of at least 1 and a day
valid for that month and year.  Digit classes are modelled at their ASCII
range (Python's `\d` also admits non-ASCII decimal digits). -/
def parseDate (s : String) : Option Date :=
  match splitDash s.data with
  | [ys, ms, ds] =>
    match dayGroupVal ds with
    | none => none
    | some d =>
      if ys.length = 4 && allDigits ys
          && 1 ≤ ms.length && ms.length ≤ 2 && allDigits ms then
        if 1 ≤ digitsVal ys && 1 ≤ digitsVal ms && digitsVal ms ≤ 12
            && 1 ≤ d && d ≤ daysInMonth (digitsVal ys) (digitsVal ms) then
          some ⟨digitsVal ys, digitsVal ms, d⟩
        else none
      else none
  | _ => none

/-- A show record of the tracker document.  All lists of the document hold
records of this shape; fields a given list does not use are `none`
(Python dicts simply lack the key). -/
structure Show where
  id : String
  title : String
  tmdb_id : Option Nat := none
  seasons_watched : Option Nat := none
  next_season : Option Nat := none
  total_seasons : Option Nat := none
  show_status : Option String := none
  network : Option String := none
  notes : Option String := none
  reason : Option String := none
  rating : Option String := none
  deriving Repr, DecidableEq

/-- Relevant part of the provider's show-detail response (`GET /tv/{id}`). -/
structure ShowDetail where
  number_of_seasons : Option Nat := none
  status : Option String := none
  deriving Repr, DecidableEq

/-- Relevant part of the provider's season-detail response
(`GET /tv/{id}/season/{n}`). -/
structure SeasonDetail where
  air_date : Option String := none
  deriving Repr, DecidableEq

/-- The tracker document (`shows.json`).  `last_updated` is omitted: it is
overwritten on every save and no claim concerns it. -/
structure Db where
  watching_now : List Show
  finished_watching : List Show
  series_to_explore : List Show
  available_to_watch_next : List Show
  waiting_for_next_season : List Show
  claude_recommendations : List Show
  deriving Repr, DecidableEq

/-- `season_has_aired(tmdb_id, season_number)`: fetch the season detail and
confirm its air date is today or in the past.  `fetchSeason` stands for
`tmdb_get`, `today` for `datetime.now(timezone.utc).date()`. -/
def season_has_aired (fetchSeason : Nat → Nat → Option SeasonDetail)
    (today : Date) (tmdb_id season_number : Nat) : Bool :=
  match fetchSeason tmdb_id season_number with
  | none => false
  | some data =>
    if data.air_date.getD "" = "" then false
    else
      match parseDate (data.air_date.getD "") with
      | none => false
      | some aired => dateLe aired today

/-- Body of the `for show in waiting` loop of `check_season_updates`.
`Sum.inl` is the record appended to `still_waiting`; `Sum.inr` is the fresh
record appended to `moved_to_available`.  A `tmdb_id` of `0` is falsy in
Python, like a missing one. -/
def checkShow (fetchShow : Nat → Option ShowDetail)
    (hasAired : Nat → Nat → Bool) (sh : Show) : Sum Show Show :=
  match sh.tmdb_id with
  | none => Sum.inl sh
  | some tid =>
    if tid = 0 then Sum.inl sh
    else
      match fetchShow tid with
      | none => Sum.inl sh
      | some data =>
        if sh.seasons_watched.getD 1 + 1 ≤ data.number_of_seasons.getD (sh.total_seasons.getD 1) then
          if hasAired tid (sh.seasons_watched.getD 1 + 1) then
            Sum.inr
              { id := sh.id
                title := sh.title
                tmdb_id := some tid
                next_season := some (sh.seasons_watched.getD 1 + 1)
                total_seasons := some (data.number_of_seasons.getD (sh.total_seasons.getD 1))
                show_status := some (data.status.getD (sh.show_status.getD "Continuing"))
                network := some (sh.network.getD "")
                notes := some (sh.notes.getD "") }
          else
            Sum.inl { sh with
              total_seasons := some (data.number_of_seasons.getD (sh.total_seasons.getD 1))
              show_status := some (data.status.getD (sh.show_status.getD "Continuing")) }
        else
          Sum.inl { sh with
            total_seasons := some (data.number_of_seasons.getD (sh.total_seasons.getD 1))
            show_status := some (data.status.getD (sh.show_status.getD "Continuing")) }

/-- `check_season_updates(db)`: partition the waiting list through
`checkShow`, write the still-waiting records back, append the moved records
whose `id` is not already present in `available_to_watch_next`
(the `existing_ids` set is computed once, before the insertion loop), and
return `len(moved_to_available)`. -/
def check_season_updates (fetchShow : Nat → Option ShowDetail)
    (fetchSeason : Nat → Nat → Option SeasonDetail) (today : Date)
    (db : Db) : Db × Nat :=
  let results := db.waiting_for_next_season.map
    (checkShow fetchShow (season_has_aired fetchSeason today))
  let still_waiting := results.filterMap
    (fun r => match r with | Sum.inl s => some s | Sum.inr _ => none)
  let moved := results.filterMap
    (fun r => match r with | Sum.inr s => some s | Sum.inl _ => none)
  let existing_ids := db.available_to_watch_next.map (fun s => s.id)
  ({ db with
      waiting_for_next_season := still_waiting
      available_to_watch_next :=
        db.available_to_watch_next ++ moved.filter (fun s => decide (s.id ∉ existing_ids)) },
   moved.length)

/-- `season_has_aired` over a fetch oracle that can also raise:
`Except.error ()` is an uncaught `requests` exception, which propagates,
`Except.ok none` a handled soft failure (missing credential or non-200). -/
def season_has_aired_exc (fetchSeason : Nat → Nat → Except Unit (Option SeasonDetail))
    (today : Date) (tmdb_id season_number : Nat) : Except Unit Bool :=
  match fetchSeason tmdb_id season_number with
  | Except.error () => Except.error ()
  | Except.ok none => Except.ok false
  | Except.ok (some data) =>
    Except.ok
      (if data.air_date.getD "" = "" then false
      else
        match parseDate (data.air_date.getD "") with
        | none => false
        | some aired => dateLe aired today)

/-- The loop body of `check_season_updates` over raising oracles: an
exception from either fetch propagates out of the body. -/
def checkShowExc (fetchShow : Nat → Except Unit (Option ShowDetail))
    (hasAired : Nat → Nat → Except Unit Bool) (sh : Show) :
    Except Unit (Sum Show Show) :=
  match sh.tmdb_id with
  | none => Except.ok (Sum.inl sh)
  | some tid =>
    if tid = 0 then Except.ok (Sum.inl sh)
    else
      match fetchShow tid with
      | Except.error () => Except.error ()
      | Except.ok none => Except.ok (Sum.inl sh)
      | Except.ok (some data) =>
        if sh.seasons_watched.getD 1 + 1 ≤ data.number_of_seasons.getD (sh.total_seasons.getD 1) then
          match hasAired tid (sh.seasons_watched.getD 1 + 1) with
          | Except.error () => Except.error ()
          | Except.ok true =>
            Except.ok (Sum.inr
              { id := sh.id
                title := sh.title
                tmdb_id := some tid
                next_season := some (sh.seasons_watched.getD 1 + 1)
                total_seasons := some (data.number_of_seasons.getD (sh.total_seasons.getD 1))
                show_status := some (data.status.getD (sh.show_status.getD "Continuing"))
                network := some (sh.network.getD "")
                notes := some (sh.notes.getD "") })
          | Except.ok false =>
            Except.ok (Sum.inl { sh with
              total_seasons := some (data.number_of_seasons.getD (sh.total_seasons.getD 1))
              show_status := some (data.status.getD (sh.show_status.getD "Continuing")) })
        else
          Except.ok (Sum.inl { sh with
            total_seasons := some (data.number_of_seasons.getD (sh.total_seasons.getD 1))
            show_status := some (data.status.getD (sh.show_status.getD "Continuing")) })

/-- The `for show in waiting` loop over raising oracles: the first
exception aborts the whole loop (Python unwinds the `for` statement). -/
def checkLoopExc (fetchShow : Nat → Except Unit (Option ShowDetail))
    (hasAired : Nat → Nat → Except Unit Bool) :
    List Show → Except Unit (List (Sum Show Show))
  | [] => Except.ok []
  | sh :: rest =>
    match checkShowExc fetchShow hasAired sh with
    | Except.error () => Except.error ()
    | Except.ok r =>
      match checkLoopExc fetchShow hasAired rest with
      | Except.error () => Except.error ()
      | Except.ok rs => Except.ok (r :: rs)

/-- `check_season_updates` over raising oracles: a `requests` exception is
caught nowhere in the script, so it aborts the function — and with it the
run, before `save_db` — yielding no output document at all.  When no
exception occurs the assembly is the one of `check_season_updates`. -/
def check_season_updates_exc (fetchShow : Nat → Except Unit (Option ShowDetail))
    (fetchSeason : Nat → Nat → Except Unit (Option SeasonDetail)) (today : Date)
    (db : Db) : Except Unit (Db × Nat) :=
  match checkLoopExc fetchShow (season_has_aired_exc fetchSeason today)
      db.waiting_for_next_season with
  | Except.error () => Except.error ()
  | Except.ok results =>
    Except.ok
      ({ db with
          waiting_for_next_season := results.filterMap
            (fun r => match r with | Sum.inl s => some s | Sum.inr _ => none)
          available_to_watch_next :=
            db.available_to_watch_next ++
              (results.filterMap
                (fun r => match r with | Sum.inr s => some s | Sum.inl _ => none)).filter
                (fun s => decide (s.id ∉ db.available_to_watch_next.map (fun s => s.id))) },
       (results.filterMap
         (fun r => match r with | Sum.inr s => some s | Sum.inl _ => none)).length)

/-- Claim C6 as stated: a waiting show whose show-detail fetch fails in any
way — network error (`Except.error`), or missing credential / non-200
(`Except.ok none`) — is always carried over unchanged into the waiting list
of the run's output. -/
def checkerNeverDropsOnError : Prop :=
  ∀ (fetchShow : Nat → Except Unit (Option ShowDetail))
    (fetchSeason : Nat → Nat → Except Unit (Option SeasonDetail))
    (today : Date) (db : Db) (sh : Show),
    sh ∈ db.waiting_for_next_season →
    (∀ tid, sh.tmdb_id = some tid → tid ≠ 0 →
      (fetchShow tid = Except.error () ∨ fetchShow tid = Except.ok none)) →
    ∃ out, check_season_updates_exc fetchShow fetchSeason today db = Except.ok out ∧
      sh ∈ out.1.waiting_for_next_season

/-- Character class `[a-z0-9]` of the slug regex (the title is lowercased
before the substitution, so uppercase letters never reach it). -/
def isAlnumLower (c : Char) : Bool :=
  ('a' ≤ c && c ≤ 'z') || ('0' ≤ c && c ≤ '9')

/-- `str.lower()` restricted to its ASCII action. -/
def lowerString (s : String) : String :=
  ⟨s.data.map Char.toLower⟩

/-- `str.strip()`: remove leading and trailing whitespace. -/
def trimString (s : String) : String :=
  ⟨((s.data.dropWhile Char.isWhitespace).reverse.dropWhile Char.isWhitespace).reverse⟩

/-- `re.sub(r'[^a-z0-9]+', '-', l)`: each maximal nonempty run of characters
outside `[a-z0-9]` is replaced by one hyphen.  The scan mirrors the regex
engine: `inRun` records whether the previous character was part of a run
already replaced by a hyphen. -/
def subNonAlnumGo (inRun : Bool) : List Char → List Char
  | [] => []
  | c :: cs =>
    if isAlnumLower c then c :: subNonAlnumGo false cs
    else if inRun then subNonAlnumGo true cs
    else '-' :: subNonAlnumGo true cs

/-- The full substitution starts outside any run. -/
def subNonAlnum (l : List Char) : List Char :=
  subNonAlnumGo false l

/-- `.strip('-')`: remove every leading and trailing hyphen. -/
def stripHyphens (l : List Char) : List Char :=
  ((l.dropWhile (· = '-')).reverse.dropWhile (· = '-')).reverse

/-- `show_id = re.sub(r'[^a-z0-9]+', '-', title.lower()).strip('-')`. -/
def show_id (title : String) : String :=
  ⟨stripHyphens (subNonAlnum (lowerString title).data)⟩

/-- Spec-side slug ("derived from title by lowercasing and replacing runs of
non-alphanumeric characters with a single hyphen, trimmed of leading/trailing
hyphens"), stated independently of the regex scan: map every non-alphanumeric
character to a hyphen, then collapse adjacent hyphens, then trim. -/
def hyphenate (c : Char) : Char :=
  if isAlnumLower c then c else '-'

/-- Collapse each run of adjacent hyphens to a single hyphen. -/
def collapseHyphens : List Char → List Char
  | [] => []
  | [c] => [c]
  | a :: b :: rest =>
    if a = '-' && b = '-' then collapseHyphens (b :: rest)
    else a :: collapseHyphens (b :: rest)

/-- The slug exactly as the spec words it. -/
def slugSpec (title : String) : String :=
  ⟨stripHyphens (collapseHyphens ((lowerString title).data.map hyphenate))⟩

/-- One element of the JSON array returned by the generation provider
(`r` in the dedup loop); every field is read with `.get`, so all are
optional. -/
structure Candidate where
  title : Option String := none
  tmdb_id : Option Nat := none
  total_seasons : Option Nat := none
  show_status : Option String := none
  network : Option String := none
  reason : Option String := none
  deriving Repr, DecidableEq

/-- The six lists scanned when building `all_titles`, in the order the code
names them. -/
def trackedShows (db : Db) : List Show :=
  db.watching_now ++ db.available_to_watch_next ++ db.waiting_for_next_season
    ++ db.series_to_explore ++ db.claude_recommendations ++ db.finished_watching

/-- Titles of the tracked shows (for the spec-side exclusion statement). -/
def trackedTitles (db : Db) : List String :=
  (trackedShows db).map (fun s => s.title)

/-- `all_titles`: the lowercased title of every show in the six tracked
lists.  Python builds a set; only membership matters, so a list is used. -/
def exclusionTitles (db : Db) : List String :=
  (trackedShows db).map (fun s => lowerString s.title)

/-- The cleaned record appended for an accepted candidate. -/
def mkClean (r : Candidate) : Show :=
  { id := show_id (trimString (r.title.getD ""))
    title := trimString (r.title.getD "")
    tmdb_id := r.tmdb_id
    total_seasons := r.total_seasons
    show_status := some (r.show_status.getD "Ended")
    network := some (r.network.getD "")
    reason := some (r.reason.getD "") }

/-- The `for r in recommendations` dedup loop: skip a candidate whose
stripped title is empty or whose lowercased title is in `seen`; otherwise
append the cleaned record and add the lowercased title to `seen`. -/
def dedupLoop (seen : List String) : List Candidate → List Show
  | [] => []
  | r :: rest =>
    if trimString (r.title.getD "") = "" ∨ lowerString (trimString (r.title.getD "")) ∈ seen then
      dedupLoop seen rest
    else
      mkClean r :: dedupLoop (lowerString (trimString (r.title.getD "")) :: seen) rest

/-- Strip the code fences the model may wrap around its JSON:
`re.sub(r'^\x60\x60\x60json\s*', '', raw)` then `re.sub(r'\x60\x60\x60$', '', raw)`
applied to the already-stripped response text. -/
def stripFences (s : String) : String :=
  let s1 : List Char :=
    if s.data.take 7 = "```json".data then (s.data.drop 7).dropWhile Char.isWhitespace
    else s.data
  if s1.reverse.take 3 = "```".data.reverse then ⟨(s1.reverse.drop 3).reverse⟩ else ⟨s1⟩

/-- `generate_recommendations(db)`.  `hasKey` models the presence of the
generation credential, `response` the provider call (`none` when it raises)
and `jsonParse` the `json.loads` step (`none` when it raises).  On any
failure the document is returned unchanged; on success
`claude_recommendations` is replaced by the first five accepted records. -/
def generate_recommendations (hasKey : Bool) (response : Option String)
    (jsonParse : String → Option (List Candidate)) (db : Db) : Db :=
  if hasKey then
    match response with
    | none => db
    | some text =>
      match jsonParse (stripFences (trimString text)) with
      | none => db
      | some recs =>
        { db with claude_recommendations := (dedupLoop (exclusionTitles db) recs).take 5 }
  else db

/-- The acceptance rule as the spec words it: a candidate is excluded when
its title is empty or missing, or when its lowercased title equals the
lowercased title of a tracked show or of an earlier-accepted candidate of
the same batch; otherwise it is accepted.  `tracked` carries the titles of
the six tracked lists, `acc` the lowercased titles accepted so far. -/
def acceptSpec (tracked : List String) : List String → List Candidate → List Show
  | _, [] => []
  | acc, r :: rest =>
    if trimString (r.title.getD "") = ""
        ∨ lowerString (trimString (r.title.getD "")) ∈ tracked.map lowerString
        ∨ lowerString (trimString (r.title.getD "")) ∈ acc then
      acceptSpec tracked acc rest
    else
      mkClean r :: acceptSpec tracked (lowerString (trimString (r.title.getD "")) :: acc) rest

/-- Claim C2 as stated: on every successful generation run, each resulting
recommendation is either a record that was already there or one whose `id`
duplicates no `id` already present in any tracked list. -/
def recGenPreservesIds : Prop :=
  ∀ (jsonParse : String → Option (List Candidate)) (db : Db) (text : String),
    ∀ r ∈ (generate_recommendations true (some text) jsonParse db).claude_recommendations,
      r ∈ db.claude_recommendations ∨ r.id ∉ (trackedShows db).map (fun s => s.id)

/-! ## Concrete data for witnesses -/

/-- A hand-curated tracked show whose `id` is not the slug of its title. -/
def cExisting : Show := { id := "severance", title := "The Severance Show" }

/-- Document tracking only `cExisting` (in the waiting list). -/
def cDb : Db :=
  { watching_now := [], finished_watching := [], series_to_explore := [],
    available_to_watch_next := [], waiting_for_next_season := [cExisting],
    claude_recommendations := [] }

/-- A generation candidate whose slug collides with `cExisting`'s id. -/
def cCand : Candidate := { title := some "Severance" }

/-- Parse oracle returning exactly that candidate. -/
def cParse : String → Option (List Candidate) := fun _ => some [cCand]

/-- A tracked show for the recommendation-side witnesses. -/
def gDark : Show := { id := "dark", title := "Dark" }

/-- Document tracking only `gDark` (in `watching_now`), with one stale
recommendation to be replaced. -/
def gOldRec : Show := { id := "andor", title := "Andor" }

/-- Document for the generation witnesses. -/
def gDb : Db :=
  { watching_now := [gDark], finished_watching := [], series_to_explore := [],
    available_to_watch_next := [], waiting_for_next_season := [],
    claude_recommendations := [gOldRec] }

/-- Candidate batch: a tracked title (to be skipped) and a fresh one. -/
def gCands : List Candidate := [{ title := some "Dark" }, { title := some "Severance" }]

/-- Parse oracle returning that batch. -/
def gParse : String → Option (List Candidate) := fun _ => some gCands

/-- Parse oracle that always fails (malformed JSON). -/
def gParseFail : String → Option (List Candidate) := fun _ => none

/-- The waiting show of the spec's worked scenario. -/
def wShow : Show :=
  { id := "dark-2", title := "Dark", tmdb_id := some 42009, seasons_watched := some 1 }

/-- Show-detail response reporting two seasons. -/
def wDetail : ShowDetail := { number_of_seasons := some 2, status := some "Returning Series" }

/-- Show-detail oracle knowing only show 42009. -/
def wFetchShow : Nat → Option ShowDetail :=
  fun t => if t = 42009 then some wDetail else none

/-- Season-detail response with the scenario's air date. -/
def wSeason : SeasonDetail := { air_date := some "2019-06-27" }

/-- Season-detail oracle knowing only season 2 of show 42009. -/
def wFetchSeason : Nat → Nat → Option SeasonDetail :=
  fun t n => if t = 42009 ∧ n = 2 then some wSeason else none

/-- A current date equal to the air date (the boundary case that must
promote). -/
def wToday : Date := ⟨2019, 6, 27⟩

/-- Show-detail response reporting one season (fewer than needed). -/
def wDetail7 : ShowDetail := { number_of_seasons := some 1, status := some "Ended" }

/-- Show-detail oracle for the no-promotion scenario. -/
def wFetchShow7 : Nat → Option ShowDetail :=
  fun t => if t = 42009 then some wDetail7 else none

/-- Document whose waiting list holds only `wShow`. -/
def wDb7 : Db :=
  { watching_now := [], finished_watching := [], series_to_explore := [],
    available_to_watch_next := [], waiting_for_next_season := [wShow],
    claude_recommendations := [] }

/-- A record already present in `available_to_watch_next`. -/
def wAvail : Show := { id := "dark", title := "Dark" }

/-- Document whose available list holds only `wAvail`. -/
def wDb8 : Db :=
  { watching_now := [], finished_watching := [], series_to_explore := [],
    available_to_watch_next := [wAvail], waiting_for_next_season := [],
    claude_recommendations := [] }

/-- A stale copy of the promoted show already sitting in the available
list. -/
def wAvail10 : Show := { id := "dark-2", title := "Dark" }

/-- Document where `wShow` meets the promotion rule but its id already
exists in the available list. -/
def wDb10 : Db :=
  { watching_now := [], finished_watching := [], series_to_explore := [],
    available_to_watch_next := [wAvail10], waiting_for_next_season := [wShow],
    claude_recommendations := [] }

/-- The record `checkShow` builds for `wShow`. -/
def wRec : Show :=
  { id := "dark-2", title := "Dark", tmdb_id := some 42009, next_season := some 2,
    total_seasons := some 2, show_status := some "Returning Series",
    network := some "", notes := some "" }

/-! ## Helper lemmas about the Checker -/

/-- Unfolding of `season_has_aired` into the conjunction of its success
conditions. -/
theorem season_has_aired_iff (s : Nat → Nat → Option SeasonDetail)
    (today : Date) (tid n : Nat) :
    season_has_aired s today tid n = true ↔
      ∃ sd, s tid n = some sd ∧ sd.air_date.getD "" ≠ "" ∧
        ∃ d, parseDate (sd.air_date.getD "") = some d ∧ dateLe d today = true := by
  unfold season_has_aired
  cases hs : s tid n with
  | none => simp
  | some sd =>
    by_cases he : sd.air_date.getD "" = ""
    · simp [he]
    · cases hp : parseDate (sd.air_date.getD "") with
      | none => simp [hp, he]
      | some d => simp [hp, he]

/-- A show with no usable identifier, or whose show-detail fetch soft-fails,
is sent to the still-waiting bucket untouched by the raising loop body. -/
theorem checkShowExc_soft_fail (f : Nat → Except Unit (Option ShowDetail))
    (hasAired : Nat → Nat → Except Unit Bool) (sh : Show)
    (hf : ∀ tid, sh.tmdb_id = some tid → tid ≠ 0 → f tid = Except.ok none) :
    checkShowExc f hasAired sh = Except.ok (Sum.inl sh) := by
  unfold checkShowExc
  cases h : sh.tmdb_id with
  | none => rfl
  | some tid =>
    by_cases h0 : tid = 0
    · simp [h0]
    · simp [h0, hf tid h h0]

/-- Whatever the raising loop body yields for a member of the processed
list appears among the results of a completed loop. -/
theorem checkLoopExc_mem (f : Nat → Except Unit (Option ShowDetail))
    (hasAired : Nat → Nat → Except Unit Bool) (l : List Show)
    (results : List (Sum Show Show)) (sh : Show) (r : Sum Show Show)
    (hl : checkLoopExc f hasAired l = Except.ok results)
    (hm : sh ∈ l) (hr : checkShowExc f hasAired sh = Except.ok r) :
    r ∈ results := by
  induction l generalizing results with
  | nil => simp at hm
  | cons a rest ih =>
    simp only [checkLoopExc] at hl
    cases ha : checkShowExc f hasAired a with
    | error e =>
      rw [ha] at hl
      exact absurd hl (by simp)
    | ok ra =>
      rw [ha] at hl
      cases hrest : checkLoopExc f hasAired rest with
      | error e =>
        rw [hrest] at hl
        exact absurd hl (by simp)
      | ok rs =>
        rw [hrest] at hl
        simp only [Except.ok.injEq] at hl
        rw [← hl]
        rcases List.mem_cons.mp hm with h1 | h1
        · rw [h1] at hr
          rw [ha] at hr
          simp only [Except.ok.injEq] at hr
          exact hr ▸ List.mem_cons_self _ _
        · exact List.mem_cons_of_mem _ (ih rs hrest h1)

/-- Lifting exception-free oracles: the raising body agrees with the plain
one. -/
theorem checkShowExc_lift (f : Nat → Option ShowDetail) (hasAired : Nat → Nat → Bool)
    (sh : Show) :
    checkShowExc (fun t => Except.ok (f t)) (fun a b => Except.ok (hasAired a b)) sh
      = Except.ok (checkShow f hasAired sh) := by
  unfold checkShowExc checkShow
  cases h : sh.tmdb_id with
  | none => rfl
  | some tid =>
    dsimp only
    by_cases h0 : tid = 0
    · rw [if_pos h0, if_pos h0]
    · rw [if_neg h0, if_neg h0]
      cases hf : f tid with
      | none => rfl
      | some data =>
        dsimp only
        by_cases hn : sh.seasons_watched.getD 1 + 1
            ≤ data.number_of_seasons.getD (sh.total_seasons.getD 1)
        · rw [if_pos hn, if_pos hn]
          cases hasAired tid (sh.seasons_watched.getD 1 + 1) <;> rfl
        · rw [if_neg hn, if_neg hn]

/-- Lifting exception-free oracles through the loop. -/
theorem checkLoopExc_lift (f : Nat → Option ShowDetail) (hasAired : Nat → Nat → Bool)
    (l : List Show) :
    checkLoopExc (fun t => Except.ok (f t)) (fun a b => Except.ok (hasAired a b)) l
      = Except.ok (l.map (checkShow f hasAired)) := by
  induction l with
  | nil => rfl
  | cons a rest ih =>
    simp only [checkLoopExc, checkShowExc_lift, ih, List.map_cons]

/-- The lift of `season_has_aired` to never-raising oracles. -/
theorem season_has_aired_exc_lift (s : Nat → Nat → Option SeasonDetail)
    (today : Date) (a b : Nat) :
    season_has_aired_exc (fun x y => Except.ok (s x y)) today a b
      = Except.ok (season_has_aired s today a b) := by
  unfold season_has_aired_exc season_has_aired
  dsimp only
  cases hsb : s a b with
  | none => rfl
  | some sd => rfl

/-- The `Option`-layer Checker is the exception-free fragment of the
`Except`-layer one. -/
theorem check_season_updates_exc_lift (f : Nat → Option ShowDetail)
    (s : Nat → Nat → Option SeasonDetail) (today : Date) (db : Db) :
    check_season_updates_exc (fun t => Except.ok (f t)) (fun x y => Except.ok (s x y))
        today db
      = Except.ok (check_season_updates f s today db) := by
  unfold check_season_updates_exc check_season_updates
  have hsea : (season_has_aired_exc (fun x y => Except.ok (s x y)) today)
      = (fun a b => Except.ok (season_has_aired s today a b)) := by
    funext a b
    exact season_has_aired_exc_lift s today a b
  rw [hsea, checkLoopExc_lift]

/-- Anything `checkShow` sends to the still-waiting bucket is in the
waiting list `check_season_updates` writes back. -/
theorem mem_output_waiting (f : Nat → Option ShowDetail)
    (s : Nat → Nat → Option SeasonDetail) (today : Date) (db : Db)
    (sh out : Show) (hm : sh ∈ db.waiting_for_next_season)
    (hc : checkShow f (season_has_aired s today) sh = Sum.inl out) :
    out ∈ (check_season_updates f s today db).1.waiting_for_next_season := by
  simp only [check_season_updates]
  refine List.mem_filterMap.mpr ⟨Sum.inl out, ?_, rfl⟩
  exact hc ▸ List.mem_map_of_mem _ hm

/-! ## Claims about the Checker -/

/-- Claim C1: for a waiting show with a usable external identifier whose
show-detail fetch succeeds and reports a total season count, `checkShow`
promotes it (emits the available-to-watch record, with
`next_season = seasons_watched + 1`, `seasons_watched` defaulting to 1)
if and only if the reported count is at least `seasons_watched + 1`, the
season-detail fetch succeeds, the air date is present, it parses as a
`YYYY-MM-DD` calendar date and the parsed date is on or before the current
UTC date; equality with the current date promotes, a strictly later date
does not. -/
theorem checkSeasonUpdates_promotes_iff (f : Nat → Option ShowDetail)
    (s : Nat → Nat → Option SeasonDetail) (today : Date) (sh : Show)
    (tid : Nat) (data : ShowDetail) (n : Nat)
    (h1 : sh.tmdb_id = some tid) (h2 : tid ≠ 0)
    (h3 : f tid = some data) (h4 : data.number_of_seasons = some n) :
    (∃ rec, checkShow f (season_has_aired s today) sh = Sum.inr rec ∧
        rec.next_season = some (sh.seasons_watched.getD 1 + 1)) ↔
      (sh.seasons_watched.getD 1 + 1 ≤ n ∧
        ∃ sd, s tid (sh.seasons_watched.getD 1 + 1) = some sd ∧
          sd.air_date.getD "" ≠ "" ∧
          ∃ d, parseDate (sd.air_date.getD "") = some d ∧ dateLe d today = true) := by
  unfold checkShow
  rw [h1]
  simp only [h2, if_neg, h3, h4, Option.getD_some]
  by_cases hn : sh.seasons_watched.getD 1 + 1 ≤ n
  · rw [if_pos hn]
    by_cases ha : season_has_aired s today tid (sh.seasons_watched.getD 1 + 1) = true
    · rw [if_pos ha]
      rw [season_has_aired_iff] at ha
      simp only [hn, true_and]
      constructor
      · intro _; exact ha
      · intro _; exact ⟨_, rfl, rfl⟩
    · rw [if_neg ha]
      rw [season_has_aired_iff] at ha
      simp only [hn, true_and]
      constructor
      · rintro ⟨rec, hrec, -⟩; exact absurd hrec (by simp)
      · intro h; exact absurd h ha
  · rw [if_neg hn]
    constructor
    · rintro ⟨rec, hrec, -⟩; exact absurd hrec (by simp)
    · rintro ⟨h, -⟩; exact absurd h hn

/-- Claim C6, counterexample: `tmdb_get` catches no exception — only a
missing credential or a non-200 response return `None` — so a `requests`
network error propagates out of `check_season_updates` and aborts the run
before any output exists.  With one waiting show whose fetch raises, the
run yields no output waiting list at all, refuting "network error → carried
over unchanged". -/
theorem checkerDropsOnNetworkError : ¬ checkerNeverDropsOnError := by
  intro h
  rcases h (fun _ => Except.error ()) (fun _ _ => Except.error ()) wToday wDb7 wShow
      (by decide) (fun _ _ _ => Or.inl rfl) with ⟨out, hout, -⟩
  have heval : check_season_updates_exc (fun _ => Except.error ())
      (fun _ _ => Except.error ()) wToday wDb7 = Except.error () := rfl
  rw [heval] at hout
  exact Except.noConfusion hout

/-- Claim C6 as amended: a waiting show that lacks a usable external
identifier, or whose show-detail fetch returns the handled soft failures
(missing credential or non-200 response), is carried over completely
unchanged into the waiting list of every completed run; an uncaught network
exception instead aborts `check_season_updates` with no output at all. -/
theorem checkSeasonUpdates_soft_error_keeps_record
    (f : Nat → Except Unit (Option ShowDetail))
    (s : Nat → Nat → Except Unit (Option SeasonDetail)) (today : Date)
    (db : Db) (sh : Show) (out : Db × Nat)
    (hm : sh ∈ db.waiting_for_next_season)
    (hf : ∀ tid, sh.tmdb_id = some tid → tid ≠ 0 → f tid = Except.ok none)
    (hrun : check_season_updates_exc f s today db = Except.ok out) :
    sh ∈ out.1.waiting_for_next_season := by
  have hsh := checkShowExc_soft_fail f (season_has_aired_exc s today) sh hf
  unfold check_season_updates_exc at hrun
  cases hloop : checkLoopExc f (season_has_aired_exc s today)
      db.waiting_for_next_season with
  | error e =>
    rw [hloop] at hrun
    exact absurd hrun (by simp)
  | ok results =>
    rw [hloop] at hrun
    simp only [Except.ok.injEq] at hrun
    rw [← hrun]
    refine List.mem_filterMap.mpr ⟨Sum.inl sh, ?_, rfl⟩
    exact checkLoopExc_mem f _ db.waiting_for_next_season results sh (Sum.inl sh)
      hloop hm hsh

/-- Claim C7: a waiting show whose show-detail fetch succeeds (reporting a
total season count and a lifecycle status) but which is not promoted stays
in the waiting list with `total_seasons` and `show_status` overwritten by
the reported values. -/
theorem checkSeasonUpdates_writeback (f : Nat → Option ShowDetail)
    (s : Nat → Nat → Option SeasonDetail) (today : Date) (db : Db) (sh : Show)
    (tid : Nat) (data : ShowDetail) (n : Nat) (st : String)
    (hm : sh ∈ db.waiting_for_next_season)
    (h1 : sh.tmdb_id = some tid) (h2 : tid ≠ 0)
    (h3 : f tid = some data) (h4 : data.number_of_seasons = some n)
    (h5 : data.status = some st)
    (hnp : ¬ (sh.seasons_watched.getD 1 + 1 ≤ n ∧
        season_has_aired s today tid (sh.seasons_watched.getD 1 + 1) = true)) :
    { sh with total_seasons := some n, show_status := some st } ∈
      (check_season_updates f s today db).1.waiting_for_next_season := by
  refine mem_output_waiting f s today db sh _ hm ?_
  unfold checkShow
  rw [h1]
  simp only [h2, if_neg, h3, h4, h5, Option.getD_some]
  by_cases hn : sh.seasons_watched.getD 1 + 1 ≤ n
  · rw [if_pos hn]
    have ha : ¬ season_has_aired s today tid (sh.seasons_watched.getD 1 + 1) = true :=
      fun ha => hnp ⟨hn, ha⟩
    rw [if_neg ha]
    simp
  · rw [if_neg hn]
    simp

/-- Appending only records whose id is absent from `old` leaves the
multiplicity of any id already present in `old` unchanged. -/
theorem countP_append_filter_not_mem (old new : List Show) (i : String)
    (hi : i ∈ old.map (fun x => x.id)) :
    ((old ++ new.filter (fun s => decide (s.id ∉ old.map (fun s => s.id)))).countP
        (fun x => decide (x.id = i)))
      = old.countP (fun x => decide (x.id = i)) := by
  rw [List.countP_append]
  have h0 : ((new.filter (fun s => decide (s.id ∉ old.map (fun s => s.id)))).countP
      (fun x => decide (x.id = i))) = 0 := by
    rw [List.countP_eq_zero]
    intro a ha
    rw [List.mem_filter] at ha
    have hnotin := of_decide_eq_true ha.2
    simp only [decide_eq_true_eq]
    intro hai
    exact hnotin (hai ▸ hi)
  rw [h0, Nat.add_zero]

/-- Claim C8: when a record with a given `id` already exists in
`available_to_watch_next` before the run, `check_season_updates` inserts no
further record with that `id`: the multiplicity of that `id` in
`available_to_watch_next` is exactly preserved, so re-running the Checker
never produces a duplicate entry. -/
theorem checkSeasonUpdates_idempotent_insert (f : Nat → Option ShowDetail)
    (s : Nat → Nat → Option SeasonDetail) (today : Date) (db : Db) (i : String)
    (hi : i ∈ db.available_to_watch_next.map (fun x => x.id)) :
    ((check_season_updates f s today db).1.available_to_watch_next.countP
        (fun x => decide (x.id = i)))
      = db.available_to_watch_next.countP (fun x => decide (x.id = i)) := by
  simp only [check_season_updates]
  exact countP_append_filter_not_mem db.available_to_watch_next _ i hi

/-- Claim C10: a waiting show that meets the full promotion rule but whose
`id` is already present in `available_to_watch_next` is removed from the
waiting list, nothing is inserted anywhere, and it is still counted in the
returned number of promoted shows: the return value counts every show that
met the promotion rule, not the records actually inserted. -/
theorem checkSeasonUpdates_counts_skipped_promotion (f : Nat → Option ShowDetail)
    (s : Nat → Nat → Option SeasonDetail) (today : Date) (db : Db)
    (sh rec : Show) (hw : db.waiting_for_next_season = [sh])
    (hp : checkShow f (season_has_aired s today) sh = Sum.inr rec)
    (hid : rec.id ∈ db.available_to_watch_next.map (fun x => x.id)) :
    (check_season_updates f s today db).1.waiting_for_next_season = [] ∧
      (check_season_updates f s today db).1.available_to_watch_next
        = db.available_to_watch_next ∧
      (check_season_updates f s today db).2 = 1 := by
  have hd : decide (rec.id ∉ db.available_to_watch_next.map (fun s => s.id)) = false := by
    simp only [decide_eq_false_iff_not, Decidable.not_not]
    simpa using hid
  refine ⟨?_, ?_, ?_⟩
  · simp [check_season_updates, hw, hp]
  · simp [check_season_updates, hw, hp, List.filter_cons, hd]
    exact List.mem_map.mp hid
  · simp [check_season_updates, hw, hp]

/-! ## Witnesses for the Checker claims -/

/-- Witness for claim C1, at the boundary where the air date equals the
current date. -/
theorem checkSeasonUpdates_promotes_iff_witness :
    (∃ rec, checkShow wFetchShow (season_has_aired wFetchSeason wToday) wShow = Sum.inr rec ∧
        rec.next_season = some (wShow.seasons_watched.getD 1 + 1)) ↔
      (wShow.seasons_watched.getD 1 + 1 ≤ 2 ∧
        ∃ sd, wFetchSeason 42009 (wShow.seasons_watched.getD 1 + 1) = some sd ∧
          sd.air_date.getD "" ≠ "" ∧
          ∃ d, parseDate (sd.air_date.getD "") = some d ∧ dateLe d wToday = true) :=
  checkSeasonUpdates_promotes_iff wFetchShow wFetchSeason wToday wShow 42009 wDetail 2
    rfl (by decide) rfl rfl

/-- Witness for the amended claim C6: a soft-failing fetch (non-200 or
missing credential) completes the run with the record kept. -/
theorem checkSeasonUpdates_soft_error_keeps_record_witness :
    wShow ∈ ((wDb7, 0) : Db × Nat).1.waiting_for_next_season :=
  checkSeasonUpdates_soft_error_keeps_record (fun _ => Except.ok none)
    (fun _ _ => Except.ok none) wToday wDb7 wShow (wDb7, 0)
    (by decide) (fun _ _ _ => rfl) rfl

/-- Witness for claim C7: the fetch succeeds, no promotion happens, and the
record stays in waiting with both fields overwritten. -/
theorem checkSeasonUpdates_writeback_witness :
    { wShow with total_seasons := some 1, show_status := some "Ended" } ∈
      (check_season_updates wFetchShow7 (fun _ _ => none) wToday
        wDb7).1.waiting_for_next_season :=
  checkSeasonUpdates_writeback wFetchShow7 (fun _ _ => none) wToday wDb7 wShow 42009 wDetail7
    1 "Ended" (by simp [wDb7]) rfl (by decide) rfl rfl rfl (by decide)

/-- Witness for claim C8. -/
theorem checkSeasonUpdates_idempotent_insert_witness :
    ((check_season_updates (fun _ => none) (fun _ _ => none) wToday
        wDb8).1.available_to_watch_next.countP (fun x => decide (x.id = "dark")))
      = wDb8.available_to_watch_next.countP (fun x => decide (x.id = "dark")) :=
  checkSeasonUpdates_idempotent_insert (fun _ => none) (fun _ _ => none) wToday wDb8 "dark"
    (by simp [wDb8, wAvail])

/-- Witness for claim C10. -/
theorem checkSeasonUpdates_counts_skipped_promotion_witness :
    (check_season_updates wFetchShow wFetchSeason wToday wDb10).1.waiting_for_next_season = [] ∧
      (check_season_updates wFetchShow wFetchSeason wToday wDb10).1.available_to_watch_next
        = wDb10.available_to_watch_next ∧
      (check_season_updates wFetchShow wFetchSeason wToday wDb10).2 = 1 :=
  checkSeasonUpdates_counts_skipped_promotion wFetchShow wFetchSeason wToday wDb10 wShow wRec
    rfl (by decide) (by simp [wDb10, wAvail10, wRec])

/-! ## Helper lemmas about the slug and the dedup loop -/

/-- `collapseHyphens` leaves a non-hyphen head in place. -/
theorem collapseHyphens_cons_ne (a : Char) (t : List Char) (h : a ≠ '-') :
    collapseHyphens (a :: t) = a :: collapseHyphens t := by
  cases t with
  | nil => rfl
  | cons b r => simp [collapseHyphens, h]

/-- The regex scan equals the map-then-collapse formulation, both from the
start state and from inside a run (where the hyphen was already emitted). -/
theorem subNonAlnumGo_spec (l : List Char) :
    subNonAlnumGo false l = collapseHyphens (l.map hyphenate) ∧
      '-' :: subNonAlnumGo true l = collapseHyphens ('-' :: l.map hyphenate) := by
  induction l with
  | nil => exact ⟨rfl, rfl⟩
  | cons c cs ih =>
    by_cases hc : isAlnumLower c = true
    · have hcne : c ≠ '-' := by
        intro h
        rw [h] at hc
        exact absurd hc (by decide)
      have hh : hyphenate c = c := by simp [hyphenate, hc]
      constructor
      · simp only [subNonAlnumGo, hc, if_true, List.map_cons, hh]
        rw [collapseHyphens_cons_ne c _ hcne, ih.1]
      · simp only [subNonAlnumGo, hc, if_true, List.map_cons, hh]
        rw [show collapseHyphens ('-' :: c :: cs.map hyphenate)
              = '-' :: collapseHyphens (c :: cs.map hyphenate) by simp [collapseHyphens, hcne]]
        rw [collapseHyphens_cons_ne c _ hcne, ih.1]
    · have hh : hyphenate c = '-' := by simp [hyphenate, hc]
      constructor
      · simp only [subNonAlnumGo, hc, if_false, List.map_cons, hh]
        exact ih.2
      · simp only [subNonAlnumGo, hc, if_false, List.map_cons, hh]
        rw [show collapseHyphens ('-' :: '-' :: cs.map hyphenate)
              = collapseHyphens ('-' :: cs.map hyphenate) by simp [collapseHyphens]]
        exact ih.2

/-- The source slug substitution is exactly the spec's
"each maximal run of non-alphanumeric characters becomes a single hyphen". -/
theorem show_id_eq_slugSpec (t : String) : show_id t = slugSpec t := by
  unfold show_id slugSpec subNonAlnum
  rw [(subNonAlnumGo_spec (lowerString t).data).1]

/-- Every record the dedup loop accepts carries the slug of its own title
as its id. -/
theorem dedupLoop_mem_id (rs : List Candidate) : ∀ (seen : List String) (x : Show),
    x ∈ dedupLoop seen rs → x.id = show_id x.title := by
  induction rs with
  | nil =>
    intro seen x h
    simp [dedupLoop] at h
  | cons r rest ih =>
    intro seen x h
    simp only [dedupLoop] at h
    by_cases hc : (trimString (r.title.getD "") = ""
        ∨ lowerString (trimString (r.title.getD "")) ∈ seen)
    · rw [if_pos hc] at h
      exact ih seen x h
    · rw [if_neg hc] at h
      rcases List.mem_cons.mp h with h1 | h2
      · rw [h1]; rfl
      · exact ih _ x h2

/-- Every record the dedup loop accepts has a lowercased title outside the
`seen` set the loop started from. -/
theorem dedupLoop_not_seen (rs : List Candidate) : ∀ (seen : List String) (x : Show),
    x ∈ dedupLoop seen rs → lowerString x.title ∉ seen := by
  induction rs with
  | nil =>
    intro seen x h
    simp [dedupLoop] at h
  | cons r rest ih =>
    intro seen x h
    simp only [dedupLoop] at h
    by_cases hc : (trimString (r.title.getD "") = ""
        ∨ lowerString (trimString (r.title.getD "")) ∈ seen)
    · rw [if_pos hc] at h
      exact ih seen x h
    · rw [if_neg hc] at h
      rcases List.mem_cons.mp h with h1 | h2
      · rw [h1]
        exact fun hmem => hc (Or.inr hmem)
      · exact fun hmem => ih _ x h2 (List.mem_cons_of_mem _ hmem)

/-- The source dedup loop computes the spec's acceptance rule whenever the
`seen` set holds exactly the lowercased tracked titles plus the titles
accepted so far. -/
theorem dedupLoop_eq_acceptSpec (rs : List Candidate) :
    ∀ (seen tracked acc : List String),
      (∀ x : String, x ∈ seen ↔ (x ∈ tracked.map lowerString ∨ x ∈ acc)) →
      dedupLoop seen rs = acceptSpec tracked acc rs := by
  induction rs with
  | nil => intro seen tracked acc _; rfl
  | cons r rest ih =>
    intro seen tracked acc h
    simp only [dedupLoop, acceptSpec]
    by_cases hc : (trimString (r.title.getD "") = ""
        ∨ lowerString (trimString (r.title.getD "")) ∈ tracked.map lowerString
        ∨ lowerString (trimString (r.title.getD "")) ∈ acc)
    · have hc' : trimString (r.title.getD "") = ""
          ∨ lowerString (trimString (r.title.getD "")) ∈ seen := by
        rcases hc with h1 | h2 | h3
        · exact Or.inl h1
        · exact Or.inr ((h _).mpr (Or.inl h2))
        · exact Or.inr ((h _).mpr (Or.inr h3))
      rw [if_pos hc', if_pos hc]
      exact ih seen tracked acc h
    · have hc' : ¬ (trimString (r.title.getD "") = ""
          ∨ lowerString (trimString (r.title.getD "")) ∈ seen) := by
        rintro (h1 | h1)
        · exact hc (Or.inl h1)
        · rcases (h _).mp h1 with h2 | h2
          · exact hc (Or.inr (Or.inl h2))
          · exact hc (Or.inr (Or.inr h2))
      rw [if_neg hc', if_neg hc]
      congr 1
      refine ih _ tracked _ ?_
      intro x
      constructor
      · intro hx
        rcases List.mem_cons.mp hx with h1 | h1
        · exact Or.inr (h1 ▸ List.mem_cons_self _ _)
        · rcases (h x).mp h1 with h2 | h2
          · exact Or.inl h2
          · exact Or.inr (List.mem_cons_of_mem _ h2)
      · rintro (h1 | h1)
        · exact List.mem_cons_of_mem _ ((h x).mpr (Or.inl h1))
        · rcases List.mem_cons.mp h1 with h2 | h2
          · exact h2 ▸ List.mem_cons_self _ _
          · exact List.mem_cons_of_mem _ ((h x).mpr (Or.inr h2))

/-- A record of `claude_recommendations` is among the tracked shows. -/
theorem mem_trackedShows_of_mem_recs (db : Db) (x : Show)
    (h : x ∈ db.claude_recommendations) : x ∈ trackedShows db := by
  simp [trackedShows]
  tauto

/-- The `seen` set of `exclusionTitles` is the lowercased tracked titles. -/
theorem exclusionTitles_invariant (db : Db) (x : String) :
    x ∈ exclusionTitles db ↔ (x ∈ (trackedTitles db).map lowerString ∨ x ∈ ([] : List String)) := by
  simp [exclusionTitles, trackedTitles, List.map_map, Function.comp]

/-- A record of a successful run's output is one the dedup loop accepted. -/
theorem mem_dedupLoop_of_output (jsonParse : String → Option (List Candidate))
    (db : Db) (text : String) (recs : List Candidate) (x : Show)
    (hp : jsonParse (stripFences (trimString text)) = some recs)
    (hx : x ∈ (generate_recommendations true (some text) jsonParse db).claude_recommendations) :
    x ∈ dedupLoop (exclusionTitles db) recs := by
  simp only [generate_recommendations, hp, if_true] at hx
  exact List.take_subset _ _ hx

/-! ## Claims about the Generator -/

/-- Claim C2, counterexample: generation dedups only by title, so a
candidate whose slug collides with the id of a tracked show with a
different title introduces a duplicate id.  With `cDb` tracking
`{id := "severance", title := "The Severance Show"}` and the batch
containing a candidate titled `"Severance"`, the accepted record gets id
`"severance"`, which already exists in the document. -/
theorem recGen_introduces_duplicate_id : ¬ recGenPreservesIds := by
  intro h
  rcases h cParse cDb "x" (mkClean cCand) (by decide) with h1 | h2
  · exact absurd h1 (by decide)
  · exact h2 (by decide)

/-- Claim C2 as amended: a successful generation run never introduces a
record whose title case-insensitively duplicates the title of any show
already present in any tracked list; id-based deduplication is not
performed, so id uniqueness is only guaranteed via titles. -/
theorem generateRecommendations_no_dup_title
    (jsonParse : String → Option (List Candidate)) (db : Db) (text : String)
    (recs : List Candidate) (r s : Show)
    (hp : jsonParse (stripFences (trimString text)) = some recs)
    (hr : r ∈ (generate_recommendations true (some text) jsonParse db).claude_recommendations)
    (hs : s ∈ trackedShows db) :
    lowerString r.title ≠ lowerString s.title := by
  have h1 := mem_dedupLoop_of_output jsonParse db text recs r hp hr
  have h2 := dedupLoop_not_seen recs _ r h1
  intro heq
  apply h2
  rw [heq]
  exact List.mem_map_of_mem _ hs

/-- Witness for the amended claim C2. -/
theorem generateRecommendations_no_dup_title_witness :
    lowerString (mkClean { title := some "Severance" }).title ≠ lowerString gDark.title :=
  generateRecommendations_no_dup_title gParse gDb "x" gCands
    (mkClean { title := some "Severance" }) gDark rfl (by decide) (by decide)

/-- Claim C3: on a successful run, the resulting recommendation list is
exactly the spec's acceptance rule applied to the candidates in response
order — a candidate is excluded iff its title is empty or missing, or its
lowercased title equals a tracked title or an earlier-accepted candidate's
title — truncated to the cap. -/
theorem generateRecommendations_accepts_iff
    (jsonParse : String → Option (List Candidate)) (db : Db) (text : String)
    (recs : List Candidate)
    (hp : jsonParse (stripFences (trimString text)) = some recs) :
    (generate_recommendations true (some text) jsonParse db).claude_recommendations
      = (acceptSpec (trackedTitles db) [] recs).take 5 := by
  simp only [generate_recommendations, hp, if_true]
  congr 1
  exact dedupLoop_eq_acceptSpec recs (exclusionTitles db) (trackedTitles db) []
    (exclusionTitles_invariant db)

/-- Witness for claim C3. -/
theorem generateRecommendations_accepts_iff_witness :
    (generate_recommendations true (some "x") gParse gDb).claude_recommendations
      = (acceptSpec (trackedTitles gDb) [] gCands).take 5 :=
  generateRecommendations_accepts_iff gParse gDb "x" gCands rfl

/-- Claim C4: after a successful generation run `claude_recommendations`
holds at most five records and none of its previous records survives: the
old contents are replaced wholesale, never appended to. -/
theorem generateRecommendations_cap_and_replace
    (jsonParse : String → Option (List Candidate)) (db : Db) (text : String)
    (recs : List Candidate)
    (hp : jsonParse (stripFences (trimString text)) = some recs) :
    (generate_recommendations true (some text) jsonParse db).claude_recommendations.length ≤ 5 ∧
      ∀ rOld ∈ db.claude_recommendations,
        rOld ∉ (generate_recommendations true (some text) jsonParse db).claude_recommendations := by
  constructor
  · simp only [generate_recommendations, hp, if_true]
    exact List.length_take_le 5 _
  · intro rOld hOld hMem
    have h1 := mem_dedupLoop_of_output jsonParse db text recs rOld hp hMem
    exact dedupLoop_not_seen recs _ rOld h1
      (List.mem_map_of_mem _ (mem_trackedShows_of_mem_recs db rOld hOld))

/-- Witness for claim C4: the stale recommendation `gOldRec` is gone. -/
theorem generateRecommendations_cap_and_replace_witness :
    (generate_recommendations true (some "x") gParse gDb).claude_recommendations.length ≤ 5 ∧
      ∀ rOld ∈ gDb.claude_recommendations,
        rOld ∉ (generate_recommendations true (some "x") gParse gDb).claude_recommendations :=
  generateRecommendations_cap_and_replace gParse gDb "x" gCands rfl

/-- Claim C5: when the provider call fails, or the response text fails to
parse as JSON after fence stripping, the whole document — in particular
`claude_recommendations` — is left unchanged. -/
theorem generateRecommendations_abort_unchanged (hasKey : Bool)
    (jsonParse : String → Option (List Candidate)) (db : Db) :
    generate_recommendations hasKey none jsonParse db = db ∧
      ∀ text, jsonParse (stripFences (trimString text)) = none →
        generate_recommendations hasKey (some text) jsonParse db = db := by
  constructor
  · cases hasKey <;> rfl
  · intro text hp
    cases hasKey
    · rfl
    · simp [generate_recommendations, hp]

/-- Witness for claim C5: a failing parse leaves the document intact. -/
theorem generateRecommendations_abort_unchanged_witness :
    generate_recommendations true (some "oops") gParseFail gDb = gDb :=
  (generateRecommendations_abort_unchanged true gParseFail gDb).2 "oops" rfl

/-- Claim C9: every accepted recommendation's id equals its title
lowercased with each maximal run of non-alphanumeric characters replaced by
a single hyphen and leading and trailing hyphens removed; in particular the
slug of "Severance" is "severance". -/
theorem generateRecommendations_slug
    (jsonParse : String → Option (List Candidate)) (db : Db) (text : String)
    (recs : List Candidate) (x : Show)
    (hp : jsonParse (stripFences (trimString text)) = some recs)
    (hx : x ∈ (generate_recommendations true (some text) jsonParse db).claude_recommendations) :
    x.id = slugSpec x.title ∧ slugSpec "Severance" = "severance" := by
  constructor
  · have h1 := mem_dedupLoop_of_output jsonParse db text recs x hp hx
    exact (dedupLoop_mem_id recs _ x h1).trans (show_id_eq_slugSpec x.title)
  · rfl

/-- Witness for claim C9. -/
theorem generateRecommendations_slug_witness :
    (mkClean { title := some "Severance" }).id
        = slugSpec (mkClean { title := some "Severance" }).title ∧
      slugSpec "Severance" = "severance" :=
  generateRecommendations_slug gParse gDb "x" gCands (mkClean { title := some "Severance" })
    rfl (by decide)

end TvTracker
